import Mathlib

/-!
Verification of the Sangini invoice contract
(src/contracts/invoice/src/{lib.rs, storage.rs, types.rs, errors.rs}).

The Rust contract is embedded shallowly: Soroban storage becomes explicit
state passing on a `ContractState` record holding the data of one invoice
(the invoice record, its token holdings together with the holder list,
the sell orders, the shared insurance pool, the KYC allow-list, the
insurance-claimed flags and the rate configuration).  `i128` values are
modelled as `Int` (Soroban contracts abort on overflow, so no wrap-around
is modelled), `u64` timestamps and `u32` rates as `Nat`; Rust integer
division on `i128` truncates toward zero and is rendered as `Int.tdiv`.
External token movements performed through the payment-token client are
recorded as `Transfer` values.  String metadata fields (ids, currency,
description, purchase order, document hash, token symbol) play no role in
any computation modelled here and are omitted from the records.
-/

namespace Sangini

/-- Addresses: the contract address plus user addresses. -/
inductive Addr
  | contract
  | user (n : Nat)
deriving DecidableEq, Repr

/-- `InvoiceStatus` from types.rs. -/
inductive InvoiceStatus
  | Draft
  | Verified
  | Funding
  | Funded
  | Overdue
  | Settled
  | Defaulted
  | Disputed
  | Revoked
deriving DecidableEq, Repr

/-- `OrderStatus` from types.rs. -/
inductive OrderStatus
  | Open
  | PartiallyFilled
  | Filled
  | Cancelled
deriving DecidableEq, Repr

/-- `ContractError` from errors.rs. -/
inductive ContractError
  | AlreadyInitialized
  | Unauthorized
  | InvoiceNotFound
  | InvalidStatus
  | InvalidAmount
  | InsufficientTokens
  | KYCRequired
  | InvoiceDisputed
  | InsufficientPayment
  | CannotRevoke
  | DisputeNotFound
  | HoldingNotFound
  | AuctionNotStarted
  | AuctionNotActive
  | InsufficientInsurancePool
  | NotDefaulted
  | AlreadyClaimed
  | OrderNotFound
  | OrderNotActive
  | OrderAlreadyFilled
  | InvalidAuctionParams
deriving DecidableEq, Repr

/-- `RateConfig` from types.rs (basis points as `Nat`). -/
structure RateConfig where
  base_interest_rate : Nat
  penalty_rate : Nat
  grace_period_days : Nat
  default_auction_duration : Nat
  default_price_drop_rate : Nat
  default_max_discount : Nat
  insurance_cut_bps : Nat
deriving DecidableEq, Repr

/-- `Invoice` from types.rs, without the string metadata fields. -/
structure Invoice where
  supplier : Addr
  buyer : Addr
  amount : Int
  created_at : Nat
  due_date : Nat
  verified_at : Nat
  settled_at : Nat
  status : InvoiceStatus
  total_tokens : Int
  tokens_sold : Int
  tokens_remaining : Int
  repayment_received : Int
  buyer_signed_at : Nat
  auction_start : Nat
  auction_end : Nat
  start_price : Int
  min_price : Int
  price_drop_rate : Nat
deriving DecidableEq, Repr

/-- `TokenHolding` from types.rs (for a fixed invoice). -/
structure TokenHolding where
  holder : Addr
  amount : Int
  acquired_at : Nat
  acquired_price : Int
deriving DecidableEq, Repr

/-- `SellOrder` from types.rs (for a fixed invoice; ids become list indices). -/
structure SellOrder where
  seller : Addr
  token_amount : Int
  price_per_token : Int
  tokens_remaining : Int
  created_at : Nat
  status : OrderStatus
deriving DecidableEq, Repr

/-- One call to the payment-token collaborator `transfer(src, dst, amount)`. -/
structure Transfer where
  src : Addr
  dst : Addr
  amount : Int
deriving DecidableEq, Repr

/-- The storage touched by the modelled entry points, for one invoice.
`holdings` renders the `TokenHolding(invoice, holder)` map of storage.rs
together with its synchronized `HolderList` index: one list entry per
holder, in holder-list order.  `claimed` renders the per-invoice
`InsuranceClaimed` flags, `kyc` the KYC allow-list, `pool` the shared
`InsurancePool` scalar. -/
structure ContractState where
  invoice : Invoice
  holdings : List TokenHolding
  orders : List SellOrder
  pool : Int
  kyc : List Addr
  claimed : List Addr
  rate : RateConfig
deriving DecidableEq, Repr

/-- `get_token_holding` of storage.rs: first (under the nodup key
invariant: only) list entry with the given holder. -/
def get_token_holding (hs : List TokenHolding) (holder : Addr) : Option TokenHolding :=
  match hs with
  | [] => none
  | x :: rest => if x.holder = holder then some x else get_token_holding rest holder

/-- `set_token_holding` of storage.rs: replace the entry keyed by
`h.holder`; `add_holder_to_list` appends a new holder at the end. -/
def set_token_holding (hs : List TokenHolding) (h : TokenHolding) : List TokenHolding :=
  match hs with
  | [] => [h]
  | x :: rest => if x.holder = h.holder then h :: rest else x :: set_token_holding rest h

/-- `remove_token_holding` of storage.rs: delete the entry keyed by
`holder` (`remove_holder_from_list` keeps the order of the rest). -/
def remove_token_holding (hs : List TokenHolding) (holder : Addr) : List TokenHolding :=
  match hs with
  | [] => []
  | x :: rest => if x.holder = holder then rest else x :: remove_token_holding rest holder

/-- `clear_token_holdings` of storage.rs: remove the holding of every
holder on the holder list, then drop the list. -/
def clear_token_holdings (hs : List TokenHolding) : List TokenHolding :=
  (hs.map TokenHolding.holder).foldl remove_token_holding hs

/-- Sum of a holding attribute over all holdings of the invoice. -/
def sumBy (f : TokenHolding → Int) (hs : List TokenHolding) : Int :=
  (hs.map f).sum

/-- Sum of `holding.amount` over all holdings of the invoice. -/
def sumAmount (hs : List TokenHolding) : Int :=
  sumBy TokenHolding.amount hs

/-- Sum of `holding.acquired_price` over all holdings of the invoice. -/
def sumAcquired (hs : List TokenHolding) : Int :=
  sumBy TokenHolding.acquired_price hs

/-- The holder-list invariant of storage.rs: one entry per holder. -/
def keysNodup (hs : List TokenHolding) : Prop :=
  (hs.map TokenHolding.holder).Nodup

/-- `get_current_price` from lib.rs. -/
def get_current_price (inv : Invoice) (now : Nat) : Except ContractError Int :=
  if inv.auction_start = 0 then .error .AuctionNotStarted
  else if inv.auction_end ≤ now then .ok inv.min_price
  else
    let hours_elapsed : Nat := (now - inv.auction_start) / 3600
    let total_drop : Int :=
      Int.tdiv (inv.start_price * (inv.price_drop_rate : Int) * (hours_elapsed : Int)) 10000
    .ok (max (inv.start_price - total_drop) inv.min_price)

/-- `approve_invoice` from lib.rs. -/
def approve_invoice (st : ContractState) (now : Nat) (buyer : Addr) :
    Except ContractError ContractState :=
  if st.invoice.buyer ≠ buyer then .error .Unauthorized
  else if st.invoice.status ≠ .Draft then .error .InvalidStatus
  else
    let inv := { st.invoice with
      status := InvoiceStatus.Verified, verified_at := now, buyer_signed_at := now,
      total_tokens := st.invoice.amount, tokens_sold := 0,
      tokens_remaining := st.invoice.amount }
    let holding : TokenHolding :=
      { holder := inv.supplier, amount := inv.total_tokens, acquired_at := now,
        acquired_price := inv.amount }
    .ok { st with invoice := inv, holdings := set_token_holding st.holdings holding }

/-- `start_auction` from lib.rs. -/
def start_auction (st : ContractState) (now : Nat) (supplier : Addr)
    (duration_hours : Nat) (max_discount_bps : Nat) : Except ContractError ContractState :=
  if st.invoice.status ≠ .Verified then .error .InvalidStatus
  else if st.invoice.supplier ≠ supplier then .error .Unauthorized
  else if duration_hours = 0 ∨ 5000 < max_discount_bps then .error .InvalidAuctionParams
  else
    let inv := { st.invoice with
      auction_start := now, auction_end := now + duration_hours * 3600,
      start_price := st.invoice.amount,
      min_price := st.invoice.amount -
        Int.tdiv (st.invoice.amount * (max_discount_bps : Int)) 10000,
      price_drop_rate := st.rate.default_price_drop_rate,
      status := InvoiceStatus.Funding }
    .ok { st with invoice := inv }

/-- Result of a successful `invest`: the new state, the three computed
amounts, and the payment-token transfers issued. -/
structure InvestOutcome where
  state : ContractState
  payment_amount : Int
  insurance_amount : Int
  supplier_payment : Int
  transfers : List Transfer
deriving DecidableEq, Repr

/-- `invest` from lib.rs. -/
def invest (st : ContractState) (now : Nat) (investor : Addr) (token_amount : Int) :
    Except ContractError InvestOutcome :=
  if investor ∉ st.kyc then .error .KYCRequired
  else if st.invoice.status ≠ .Funding ∧ st.invoice.status ≠ .Verified then
    .error .InvalidStatus
  else if st.invoice.tokens_remaining < token_amount then .error .InsufficientTokens
  else
    match (if 0 < st.invoice.auction_start then get_current_price st.invoice now
           else Except.ok st.invoice.amount) with
    | .error e => .error e
    | .ok current_price =>
      let payment_amount := Int.tdiv (token_amount * current_price) st.invoice.total_tokens
      let insurance_amount :=
        Int.tdiv (payment_amount * (st.rate.insurance_cut_bps : Int)) 10000
      let supplier_payment := payment_amount - insurance_amount
      match get_token_holding st.holdings st.invoice.supplier with
      | none => .error .InsufficientTokens
      | some supplier_holding =>
        if supplier_holding.amount < token_amount then .error .InsufficientTokens
        else
          let sh := { supplier_holding with amount := supplier_holding.amount - token_amount }
          let hs1 := if sh.amount = 0 then remove_token_holding st.holdings st.invoice.supplier
                     else set_token_holding st.holdings sh
          let investor_holding :=
            match get_token_holding hs1 investor with
            | some existing =>
              { existing with
                amount := existing.amount + token_amount
                acquired_price := existing.acquired_price + payment_amount }
            | none =>
              { holder := investor, amount := token_amount, acquired_at := now,
                acquired_price := payment_amount }
          let hs2 := set_token_holding hs1 investor_holding
          let remaining := st.invoice.tokens_remaining - token_amount
          let inv1 := { st.invoice with
            tokens_sold := st.invoice.tokens_sold + token_amount,
            tokens_remaining := remaining,
            status := if remaining = 0 then InvoiceStatus.Funded else st.invoice.status }
          .ok { state := { st with
                           invoice := inv1
                           holdings := hs2
                           pool := st.pool + insurance_amount }
                payment_amount := payment_amount
                insurance_amount := insurance_amount
                supplier_payment := supplier_payment
                transfers := [⟨investor, .contract, payment_amount⟩,
                              ⟨.contract, st.invoice.supplier, supplier_payment⟩] }

/-- Result of a successful `claim_insurance`. -/
structure ClaimOutcome where
  state : ContractState
  payout : Int
  transfers : List Transfer
deriving DecidableEq, Repr

/-- `claim_insurance` from lib.rs. -/
def claim_insurance (st : ContractState) (investor : Addr) :
    Except ContractError ClaimOutcome :=
  if st.invoice.status ≠ .Defaulted then .error .NotDefaulted
  else if investor ∈ st.claimed then .error .AlreadyClaimed
  else
    match get_token_holding st.holdings investor with
    | none => .error .HoldingNotFound
    | some holding =>
      let claim_amount := Int.tdiv holding.acquired_price 2
      let pool_balance := st.pool
      let actual_payout := min claim_amount pool_balance
      if actual_payout = 0 then .error .InsufficientInsurancePool
      else if pool_balance < actual_payout then .error .InsufficientInsurancePool
      else
        .ok { state := { st with
                         pool := st.pool - actual_payout
                         claimed := investor :: st.claimed }
              payout := actual_payout
              transfers := [⟨.contract, investor, actual_payout⟩] }

/-- `internal_transfer_tokens` from lib.rs. -/
def internal_transfer_tokens (hs : List TokenHolding) (now : Nat) (src dst : Addr)
    (amount : Int) : Except ContractError (List TokenHolding) :=
  match get_token_holding hs src with
  | none => .error .InsufficientTokens
  | some from_holding =>
    if from_holding.amount < amount then .error .InsufficientTokens
    else
      let fh := { from_holding with amount := from_holding.amount - amount }
      let hs1 := if fh.amount = 0 then remove_token_holding hs src
                 else set_token_holding hs fh
      let to_holding :=
        match get_token_holding hs1 dst with
        | some existing => { existing with amount := existing.amount + amount }
        | none =>
          { holder := dst, amount := amount, acquired_at := now,
            acquired_price := fh.acquired_price }
      .ok (set_token_holding hs1 to_holding)

/-- `transfer_tokens` from lib.rs. -/
def transfer_tokens (st : ContractState) (now : Nat) (src dst : Addr) (amount : Int) :
    Except ContractError ContractState :=
  if st.invoice.status ≠ .Verified ∧ st.invoice.status ≠ .Funded ∧
     st.invoice.status ≠ .Funding then .error .InvalidStatus
  else
    match internal_transfer_tokens st.holdings now src dst amount with
    | .error e => .error e
    | .ok hs => .ok { st with holdings := hs }

/-- `create_sell_order` from lib.rs; the fresh order id is the index of
the appended order. -/
def create_sell_order (st : ContractState) (now : Nat) (seller : Addr)
    (token_amount price_per_token : Int) : Except ContractError (ContractState × Nat) :=
  match get_token_holding st.holdings seller with
  | none => .error .HoldingNotFound
  | some holding =>
    if holding.amount < token_amount then .error .InsufficientTokens
    else
      let order : SellOrder :=
        { seller := seller, token_amount := token_amount,
          price_per_token := price_per_token, tokens_remaining := token_amount,
          created_at := now, status := OrderStatus.Open }
      .ok ({ st with orders := st.orders ++ [order] }, st.orders.length)

/-- Result of a successful `fill_order`. -/
structure FillOutcome where
  state : ContractState
  payment : Int
  transfers : List Transfer
deriving DecidableEq, Repr

/-- `fill_order` from lib.rs. -/
def fill_order (st : ContractState) (now : Nat) (order_id : Nat) (buyer : Addr)
    (token_amount : Int) : Except ContractError FillOutcome :=
  if buyer ∉ st.kyc then .error .KYCRequired
  else
    match st.orders[order_id]? with
    | none => .error .OrderNotFound
    | some order =>
      if order.status ≠ .Open ∧ order.status ≠ .PartiallyFilled then .error .OrderNotActive
      else if order.tokens_remaining < token_amount then .error .InsufficientTokens
      else
        let payment := token_amount * order.price_per_token
        match internal_transfer_tokens st.holdings now order.seller buyer token_amount with
        | .error e => .error e
        | .ok hs =>
          let rem := order.tokens_remaining - token_amount
          let order1 := { order with
            tokens_remaining := rem
            status := if rem = 0 then OrderStatus.Filled else OrderStatus.PartiallyFilled }
          .ok { state := { st with
                           holdings := hs
                           orders := st.orders.set order_id order1 }
                payment := payment
                transfers := [⟨buyer, order.seller, payment⟩] }

/-- `check_status` from lib.rs. -/
def check_status (st : ContractState) (now : Nat) : ContractState × InvoiceStatus :=
  let inv := st.invoice
  if (inv.status = .Verified ∨ inv.status = .Funded ∨ inv.status = .Funding ∨
      inv.status = .Overdue) ∧ inv.repayment_received = 0 then
    let grace_period_seconds := st.rate.grace_period_days * 86400
    if inv.due_date + grace_period_seconds < now then
      ({ st with invoice := { inv with status := InvoiceStatus.Defaulted } },
       InvoiceStatus.Defaulted)
    else if inv.due_date < now ∧ inv.status ≠ .Overdue then
      ({ st with invoice := { inv with status := InvoiceStatus.Overdue } },
       InvoiceStatus.Overdue)
    else (st, inv.status)
  else (st, inv.status)

/-- `calculate_settlement_amount` from lib.rs. -/
def calculate_settlement_amount (rate : RateConfig) (inv : Invoice) (now : Nat) : Int :=
  let base_amount := inv.amount
  let days_since_creation : Nat := (now - inv.created_at) / 86400
  let interest_rate : Nat :=
    if inv.due_date < now then rate.penalty_rate else rate.base_interest_rate
  let interest :=
    Int.tdiv (base_amount * (interest_rate : Int) * (days_since_creation : Int)) (10000 * 365)
  base_amount + interest

/-- Loop of `distribute_settlement` from lib.rs: walk the holder list
fetched up front, pay each holder their share and delete their holding. -/
def distribute_settlement_go (hs : List TokenHolding) (holders : List Addr)
    (total_tokens total_amount : Int) (acc : List Transfer) :
    List TokenHolding × List Transfer :=
  match holders with
  | [] => (hs, acc)
  | holder :: rest =>
    match get_token_holding hs holder with
    | some holding =>
      distribute_settlement_go (remove_token_holding hs holder) rest total_tokens total_amount
        (acc ++ [⟨Addr.contract, holder, Int.tdiv (holding.amount * total_amount) total_tokens⟩])
    | none => distribute_settlement_go hs rest total_tokens total_amount acc

/-- `distribute_settlement` from lib.rs. -/
def distribute_settlement (hs : List TokenHolding) (total_tokens total_amount : Int) :
    List TokenHolding × List Transfer :=
  distribute_settlement_go hs (hs.map TokenHolding.holder) total_tokens total_amount []

/-- `execute_clawback` from lib.rs: delete every holding, no payment. -/
def execute_clawback (hs : List TokenHolding) : List TokenHolding :=
  (hs.map TokenHolding.holder).foldl remove_token_holding hs

/-- Result of a successful `settle`. -/
structure SettleOutcome where
  state : ContractState
  transfers : List Transfer
deriving DecidableEq, Repr

/-- `settle` from lib.rs. -/
def settle (st : ContractState) (now : Nat) (buyer : Addr) (payment_amount : Int) :
    Except ContractError SettleOutcome :=
  if st.invoice.buyer ≠ buyer then .error .Unauthorized
  else if st.invoice.status ≠ .Funded ∧ st.invoice.status ≠ .Overdue ∧
          st.invoice.status ≠ .Verified ∧ st.invoice.status ≠ .Funding then
    .error .InvalidStatus
  else if st.invoice.status = .Disputed then .error .InvoiceDisputed
  else
    let required_payment := calculate_settlement_amount st.rate st.invoice now
    if payment_amount < required_payment then .error .InsufficientPayment
    else
      let dist := distribute_settlement st.holdings st.invoice.total_tokens payment_amount
      let inv1 := { st.invoice with
                    status := InvoiceStatus.Settled
                    settled_at := now
                    repayment_received := payment_amount }
      .ok { state := { st with invoice := inv1, holdings := dist.1 }
            transfers := ⟨buyer, Addr.contract, payment_amount⟩ :: dist.2 }

/-- `revoke` from lib.rs. -/
def revoke (st : ContractState) (now : Nat) (supplier : Addr) :
    Except ContractError ContractState :=
  if st.invoice.supplier ≠ supplier then .error .Unauthorized
  else
    let can_revoke : Bool :=
      match st.invoice.status with
      | .Draft => true
      | .Verified => decide (st.invoice.due_date < now)
      | _ => false
    if ¬ can_revoke then .error .CannotRevoke
    else
      .ok { st with
            holdings := clear_token_holdings st.holdings
            invoice := { st.invoice with status := InvoiceStatus.Revoked } }

/-- State with the invoice status replaced, all else unchanged. -/
def withStatus (st : ContractState) (s : InvoiceStatus) : ContractState :=
  { st with invoice := { st.invoice with status := s } }

/-- Success test for a contract call result. -/
def isOk {α : Type} : Except ContractError α → Bool
  | .ok _ => true
  | .error _ => false

instance {ε α : Type} [DecidableEq ε] [DecidableEq α] : DecidableEq (Except ε α) :=
  fun a b =>
  match a, b with
  | .ok x, .ok y =>
    if h : x = y then isTrue (by rw [h])
    else isFalse (by intro hc; cases hc; exact h rfl)
  | .error e, .error f =>
    if h : e = f then isTrue (by rw [h])
    else isFalse (by intro hc; cases hc; exact h rfl)
  | .ok _, .error _ => isFalse (by intro hc; cases hc)
  | .error _, .ok _ => isFalse (by intro hc; cases hc)

/-! Concrete fixtures used by witnesses and counterexamples.  They follow
the example scenario of the spec: a 1,000,000-unit invoice, default rate
configuration, KYC-approved investors 3 and 4. -/

/-- The rate configuration produced by `initialize` with the default
documentation values (base 10%, penalty 24%, 30-day grace, 5% insurance). -/
def rateA : RateConfig :=
  { base_interest_rate := 1000, penalty_rate := 2400, grace_period_days := 30,
    default_auction_duration := 604800, default_price_drop_rate := 50,
    default_max_discount := 1500, insurance_cut_bps := 500 }

/-- A freshly minted draft invoice: supplier 1, buyer 2, amount 1,000,000. -/
def invDraft : Invoice :=
  { supplier := .user 1, buyer := .user 2, amount := 1000000,
    created_at := 0, due_date := 1000000, verified_at := 0, settled_at := 0,
    status := .Draft, total_tokens := 0, tokens_sold := 0, tokens_remaining := 0,
    repayment_received := 0, buyer_signed_at := 0,
    auction_start := 0, auction_end := 0, start_price := 0, min_price := 0,
    price_drop_rate := 0 }

/-- State right after `mint_draft`: no holdings yet. -/
def stDraft : ContractState :=
  { invoice := invDraft, holdings := [], orders := [], pool := 0,
    kyc := [.user 3, .user 4], claimed := [], rate := rateA }

/-- State after the buyer approves the draft at time 10. -/
def stVerified : ContractState :=
  (approve_invoice stDraft 10 (Addr.user 2)).toOption.getD stDraft

/-- Outcome of investor 3 buying 300,000 tokens at time 20 (no auction,
so at face value). -/
def outInvested : InvestOutcome :=
  (invest stVerified 20 (Addr.user 3) 300000).toOption.getD
    { state := stVerified, payment_amount := 0, insurance_amount := 0,
      supplier_payment := 0, transfers := [] }

/-- Invoice in a running 24-hour auction started at time 100 with
1000 bps maximum discount and the default 50 bps/hour drop rate. -/
def invAuction : Invoice :=
  { invDraft with
    status := .Funding, total_tokens := 1000000, tokens_sold := 0,
    tokens_remaining := 1000000, verified_at := 10, buyer_signed_at := 10,
    auction_start := 100, auction_end := 100 + 24 * 3600,
    start_price := 1000000, min_price := 900000, price_drop_rate := 50 }

/-- Auction state with the supplier still holding the full mint. -/
def stAuction : ContractState :=
  { invoice := invAuction,
    holdings := [{ holder := .user 1, amount := 1000000, acquired_at := 10,
                   acquired_price := 1000000 }],
    orders := [], pool := 0, kyc := [.user 3, .user 4], claimed := [], rate := rateA }

/-- Outcome of investor 3 buying 300,000 tokens one hour into the
auction (current price 995,000). -/
def outAuctionInvest : InvestOutcome :=
  (invest stAuction 3700 (Addr.user 3) 300000).toOption.getD
    { state := stAuction, payment_amount := 0, insurance_amount := 0,
      supplier_payment := 0, transfers := [] }

/-- A defaulted invoice whose investor 3 acquired a holding for 300,000,
with 14,925 units in the insurance pool. -/
def stDefaulted : ContractState :=
  { invoice := { invDraft with status := .Defaulted, total_tokens := 1000000 },
    holdings := [{ holder := .user 3, amount := 300000, acquired_at := 20,
                   acquired_price := 300000 }],
    orders := [], pool := 14925, kyc := [.user 3, .user 4], claimed := [], rate := rateA }

/-- Post-investment state together with an open sell order of investor 3
(100,000 tokens at 2 per token), with the invoice frozen in `Disputed`. -/
def stOrderBook : ContractState :=
  { outInvested.state with
    invoice := { outInvested.state.invoice with status := .Disputed }
    orders := [{ seller := .user 3, token_amount := 100000, price_per_token := 2,
                 tokens_remaining := 100000, created_at := 30, status := .Open }] }

/-- State after the supplier transfers 400,000 tokens to investor 3. -/
def stTransferred : ContractState :=
  (transfer_tokens stVerified 20 (Addr.user 1) (Addr.user 3) 400000).toOption.getD stVerified

/-- Outcome of investor 3 claiming insurance on the defaulted fixture. -/
def outClaim : ClaimOutcome :=
  (claim_insurance stDefaulted (Addr.user 3)).toOption.getD
    { state := stDefaulted, payout := 0, transfers := [] }

/-- Two holders of the fully sold 1,000,000-token invoice. -/
def hsTwoHolders : List TokenHolding :=
  [{ holder := .user 1, amount := 700000, acquired_at := 10, acquired_price := 700000 },
   { holder := .user 3, amount := 300000, acquired_at := 20, acquired_price := 300000 }]

/-- Outcome of filling 50,000 tokens of the open order while the invoice
is disputed. -/
def outFillDisputed : FillOutcome :=
  (fill_order stOrderBook 40 0 (Addr.user 4) 50000).toOption.getD
    { state := stOrderBook, payment := 0, transfers := [] }

/-- A single holder about to resell part of a holding acquired for 300,000. -/
def hsReseller : List TokenHolding :=
  [{ holder := .user 3, amount := 300000, acquired_at := 20, acquired_price := 300000 }]

/-- Result of investor 3 transferring 100,000 of their 300,000 tokens to
the fresh holder 4. -/
def hsResellerAfter : List TokenHolding :=
  (internal_transfer_tokens hsReseller 50 (Addr.user 3) (Addr.user 4) 100000).toOption.getD
    hsReseller

/-! Helper lemmas about the holdings ledger. -/

theorem get_holder_eq (hs : List TokenHolding) (a : Addr) (x : TokenHolding)
    (h : get_token_holding hs a = some x) : x.holder = a := by
  induction hs with
  | nil => simp [get_token_holding] at h
  | cons y rest ih =>
    by_cases hy : y.holder = a
    · simp [get_token_holding, hy] at h
      rw [← h]; exact hy
    · simp [get_token_holding, hy] at h
      exact ih h

theorem get_set_self (hs : List TokenHolding) (h : TokenHolding) :
    get_token_holding (set_token_holding hs h) h.holder = some h := by
  induction hs with
  | nil => simp [set_token_holding, get_token_holding]
  | cons x rest ih =>
    by_cases hx : x.holder = h.holder
    · simp [set_token_holding, get_token_holding, hx]
    · simp [set_token_holding, get_token_holding, hx, ih]

theorem get_set_ne (hs : List TokenHolding) (h : TokenHolding) (a : Addr)
    (hne : a ≠ h.holder) :
    get_token_holding (set_token_holding hs h) a = get_token_holding hs a := by
  induction hs with
  | nil => simp [set_token_holding, get_token_holding, Ne.symm hne]
  | cons x rest ih =>
    by_cases hx : x.holder = h.holder
    · have hxa : x.holder ≠ a := by rw [hx]; exact Ne.symm hne
      simp [set_token_holding, get_token_holding, hx, Ne.symm hne, hxa]
    · by_cases hxa : x.holder = a
      · rw [set_token_holding, if_neg hx]
        simp [get_token_holding, hxa]
      · rw [set_token_holding, if_neg hx]
        simp [get_token_holding, hxa, ih]

theorem sumBy_cons (f : TokenHolding → Int) (x : TokenHolding) (hs : List TokenHolding) :
    sumBy f (x :: hs) = f x + sumBy f hs := by
  simp [sumBy]

theorem sumBy_set_of_get_some (f : TokenHolding → Int) (hs : List TokenHolding)
    (h old : TokenHolding) (hget : get_token_holding hs h.holder = some old) :
    sumBy f (set_token_holding hs h) = sumBy f hs - f old + f h := by
  induction hs with
  | nil => simp [get_token_holding] at hget
  | cons x rest ih =>
    by_cases hx : x.holder = h.holder
    · simp [get_token_holding, hx] at hget
      simp [set_token_holding, hx, sumBy_cons, ← hget]
      ring
    · simp [get_token_holding, hx] at hget
      simp [set_token_holding, hx, sumBy_cons, ih hget]
      ring

theorem sumBy_set_of_get_none (f : TokenHolding → Int) (hs : List TokenHolding)
    (h : TokenHolding) (hget : get_token_holding hs h.holder = none) :
    sumBy f (set_token_holding hs h) = sumBy f hs + f h := by
  induction hs with
  | nil => simp [set_token_holding, sumBy_cons, sumBy]
  | cons x rest ih =>
    by_cases hx : x.holder = h.holder
    · simp [get_token_holding, hx] at hget
    · simp [get_token_holding, hx] at hget
      simp [set_token_holding, hx, sumBy_cons, ih hget]
      ring

theorem sumBy_remove_of_get_some (f : TokenHolding → Int) (hs : List TokenHolding)
    (a : Addr) (old : TokenHolding) (hget : get_token_holding hs a = some old) :
    sumBy f (remove_token_holding hs a) = sumBy f hs - f old := by
  induction hs with
  | nil => simp [get_token_holding] at hget
  | cons x rest ih =>
    by_cases hx : x.holder = a
    · simp [get_token_holding, hx] at hget
      simp [remove_token_holding, hx, sumBy_cons, ← hget]
    · simp [get_token_holding, hx] at hget
      simp [remove_token_holding, hx, sumBy_cons, ih hget]
      ring

theorem clear_token_holdings_eq_nil (hs : List TokenHolding) :
    clear_token_holdings hs = [] := by
  unfold clear_token_holdings
  induction hs with
  | nil => simp
  | cons x rest ih =>
    simpa [remove_token_holding] using ih

theorem execute_clawback_eq_nil (hs : List TokenHolding) :
    execute_clawback hs = [] := by
  unfold execute_clawback
  have := clear_token_holdings_eq_nil hs
  unfold clear_token_holdings at this
  exact this

theorem distribute_go_spec (T P : Int) (hs : List TokenHolding) :
    ∀ acc, distribute_settlement_go hs (hs.map TokenHolding.holder) T P acc =
      ([], acc ++ hs.map (fun h =>
        ⟨Addr.contract, h.holder, Int.tdiv (h.amount * P) T⟩)) := by
  induction hs with
  | nil => intro acc; simp [distribute_settlement_go]
  | cons x rest ih =>
    intro acc
    have hx : get_token_holding (x :: rest) x.holder = some x := by
      simp [get_token_holding]
    have hrem : remove_token_holding (x :: rest) x.holder = rest := by
      simp [remove_token_holding]
    simp only [List.map_cons, distribute_settlement_go, hx, hrem, ih]
    simp

theorem distribute_settlement_spec (hs : List TokenHolding) (T P : Int) :
    distribute_settlement hs T P =
      ([], hs.map (fun h => ⟨Addr.contract, h.holder, Int.tdiv (h.amount * P) T⟩)) := by
  unfold distribute_settlement
  simpa using distribute_go_spec T P hs []

theorem internal_transfer_sumAmount (hs : List TokenHolding) (now : Nat) (src dst : Addr)
    (amount : Int) (hs' : List TokenHolding)
    (h : internal_transfer_tokens hs now src dst amount = .ok hs') :
    sumAmount hs' = sumAmount hs := by
  unfold internal_transfer_tokens at h
  cases hsrc : get_token_holding hs src with
  | none => rw [hsrc] at h; exact absurd h (by simp)
  | some fh0 =>
    rw [hsrc] at h
    dsimp only at h
    by_cases hlt : fh0.amount < amount
    · rw [if_pos hlt] at h; exact absurd h (by simp)
    · rw [if_neg hlt] at h
      simp only [Except.ok.injEq] at h
      subst h
      have hsrcf : fh0.holder = src := get_holder_eq hs src fh0 hsrc
      by_cases hz : fh0.amount - amount = 0
      · rw [if_pos hz]
        have hX : sumAmount (remove_token_holding hs src) = sumAmount hs - fh0.amount :=
          sumBy_remove_of_get_some _ hs src fh0 hsrc
        cases hdst : get_token_holding (remove_token_holding hs src) dst with
        | some ex =>
          dsimp only
          have hexh : ex.holder = dst := get_holder_eq _ dst ex hdst
          have := sumBy_set_of_get_some TokenHolding.amount (remove_token_holding hs src)
            { ex with amount := ex.amount + amount } ex (by simpa [hexh] using hdst)
          simp only [sumAmount] at *
          rw [this, hX]
          omega
        | none =>
          dsimp only
          have := sumBy_set_of_get_none TokenHolding.amount (remove_token_holding hs src)
            { holder := dst, amount := amount, acquired_at := now,
              acquired_price := fh0.acquired_price } (by simpa using hdst)
          simp only [sumAmount] at *
          rw [this, hX]
          omega
      · rw [if_neg hz]
        have hX : sumAmount (set_token_holding hs { fh0 with amount := fh0.amount - amount })
            = sumAmount hs - fh0.amount + (fh0.amount - amount) :=
          sumBy_set_of_get_some TokenHolding.amount hs _ fh0 (by simpa [hsrcf] using hsrc)
        cases hdst : get_token_holding
            (set_token_holding hs { fh0 with amount := fh0.amount - amount }) dst with
        | some ex =>
          dsimp only
          have hexh : ex.holder = dst := get_holder_eq _ dst ex hdst
          have := sumBy_set_of_get_some TokenHolding.amount
            (set_token_holding hs { fh0 with amount := fh0.amount - amount })
            { ex with amount := ex.amount + amount } ex (by simpa [hexh] using hdst)
          simp only [sumAmount] at *
          rw [this, hX]
          omega
        | none =>
          dsimp only
          have := sumBy_set_of_get_none TokenHolding.amount
            (set_token_holding hs { fh0 with amount := fh0.amount - amount })
            { holder := dst, amount := amount, acquired_at := now,
              acquired_price := fh0.acquired_price } (by simpa using hdst)
          simp only [sumAmount] at *
          rw [this, hX]
          omega

theorem invest_sumAmount (st : ContractState) (now : Nat) (investor : Addr)
    (token_amount : Int) (out : InvestOutcome)
    (h : invest st now investor token_amount = .ok out) :
    sumAmount out.state.holdings = sumAmount st.holdings ∧
    out.state.invoice.total_tokens = st.invoice.total_tokens := by
  unfold invest at h
  by_cases hk : investor ∉ st.kyc
  · rw [if_pos hk] at h; exact absurd h (by simp)
  · rw [if_neg hk] at h
    by_cases hst : st.invoice.status ≠ .Funding ∧ st.invoice.status ≠ .Verified
    · rw [if_pos hst] at h; exact absurd h (by simp)
    · rw [if_neg hst] at h
      by_cases hrem : st.invoice.tokens_remaining < token_amount
      · rw [if_pos hrem] at h; exact absurd h (by simp)
      · rw [if_neg hrem] at h
        cases hp : (if 0 < st.invoice.auction_start then get_current_price st.invoice now
                    else Except.ok st.invoice.amount) with
        | error e => rw [hp] at h; exact absurd h (by simp)
        | ok current_price =>
          rw [hp] at h
          dsimp only at h
          cases hsup : get_token_holding st.holdings st.invoice.supplier with
          | none => rw [hsup] at h; exact absurd h (by simp)
          | some sh0 =>
            rw [hsup] at h
            dsimp only at h
            by_cases hlt : sh0.amount < token_amount
            · rw [if_pos hlt] at h; exact absurd h (by simp)
            · rw [if_neg hlt] at h
              simp only [Except.ok.injEq] at h
              subst h
              refine ⟨?_, rfl⟩
              dsimp only
              have hsupf : sh0.holder = st.invoice.supplier :=
                get_holder_eq st.holdings st.invoice.supplier sh0 hsup
              by_cases hz : sh0.amount - token_amount = 0
              · rw [if_pos hz]
                have hX : sumAmount (remove_token_holding st.holdings st.invoice.supplier)
                    = sumAmount st.holdings - sh0.amount :=
                  sumBy_remove_of_get_some _ st.holdings st.invoice.supplier sh0 hsup
                cases hdst : get_token_holding
                    (remove_token_holding st.holdings st.invoice.supplier) investor with
                | some ex =>
                  dsimp only
                  have hexh : ex.holder = investor := get_holder_eq _ investor ex hdst
                  have := sumBy_set_of_get_some TokenHolding.amount
                    (remove_token_holding st.holdings st.invoice.supplier)
                    { ex with
                      amount := ex.amount + token_amount
                      acquired_price := ex.acquired_price +
                        Int.tdiv (token_amount * current_price) st.invoice.total_tokens } ex
                    (by simpa [hexh] using hdst)
                  simp only [sumAmount] at *
                  rw [this, hX]
                  omega
                | none =>
                  dsimp only
                  have := sumBy_set_of_get_none TokenHolding.amount
                    (remove_token_holding st.holdings st.invoice.supplier)
                    { holder := investor, amount := token_amount, acquired_at := now,
                      acquired_price :=
                        Int.tdiv (token_amount * current_price) st.invoice.total_tokens }
                    (by simpa using hdst)
                  simp only [sumAmount] at *
                  rw [this, hX]
                  omega
              · rw [if_neg hz]
                have hX : sumAmount (set_token_holding st.holdings
                      { sh0 with amount := sh0.amount - token_amount })
                    = sumAmount st.holdings - sh0.amount + (sh0.amount - token_amount) :=
                  sumBy_set_of_get_some TokenHolding.amount st.holdings _ sh0
                    (by simpa [hsupf] using hsup)
                cases hdst : get_token_holding (set_token_holding st.holdings
                    { sh0 with amount := sh0.amount - token_amount }) investor with
                | some ex =>
                  dsimp only
                  have hexh : ex.holder = investor := get_holder_eq _ investor ex hdst
                  have := sumBy_set_of_get_some TokenHolding.amount
                    (set_token_holding st.holdings
                      { sh0 with amount := sh0.amount - token_amount })
                    { ex with
                      amount := ex.amount + token_amount
                      acquired_price := ex.acquired_price +
                        Int.tdiv (token_amount * current_price) st.invoice.total_tokens } ex
                    (by simpa [hexh] using hdst)
                  simp only [sumAmount] at *
                  rw [this, hX]
                  omega
                | none =>
                  dsimp only
                  have := sumBy_set_of_get_none TokenHolding.amount
                    (set_token_holding st.holdings
                      { sh0 with amount := sh0.amount - token_amount })
                    { holder := investor, amount := token_amount, acquired_at := now,
                      acquired_price :=
                        Int.tdiv (token_amount * current_price) st.invoice.total_tokens }
                    (by simpa using hdst)
                  simp only [sumAmount] at *
                  rw [this, hX]
                  omega

theorem transfer_tokens_sumAmount (st : ContractState) (now : Nat) (src dst : Addr)
    (amount : Int) (st' : ContractState)
    (h : transfer_tokens st now src dst amount = .ok st') :
    sumAmount st'.holdings = sumAmount st.holdings := by
  unfold transfer_tokens at h
  by_cases hst : st.invoice.status ≠ .Verified ∧ st.invoice.status ≠ .Funded ∧
      st.invoice.status ≠ .Funding
  · rw [if_pos hst] at h; exact absurd h (by simp)
  · rw [if_neg hst] at h
    cases hi : internal_transfer_tokens st.holdings now src dst amount with
    | error e => rw [hi] at h; exact absurd h (by simp)
    | ok hs =>
      rw [hi] at h
      simp only [Except.ok.injEq] at h
      subst h
      exact internal_transfer_sumAmount _ _ _ _ _ _ hi

theorem fill_order_sumAmount (st : ContractState) (now : Nat) (order_id : Nat)
    (buyer : Addr) (token_amount : Int) (out : FillOutcome)
    (h : fill_order st now order_id buyer token_amount = .ok out) :
    sumAmount out.state.holdings = sumAmount st.holdings := by
  unfold fill_order at h
  by_cases hk : buyer ∉ st.kyc
  · rw [if_pos hk] at h; exact absurd h (by simp)
  · rw [if_neg hk] at h
    cases ho : st.orders[order_id]? with
    | none => rw [ho] at h; exact absurd h (by simp)
    | some order =>
      rw [ho] at h
      dsimp only at h
      by_cases h1 : order.status ≠ .Open ∧ order.status ≠ .PartiallyFilled
      · rw [if_pos h1] at h; exact absurd h (by simp)
      · rw [if_neg h1] at h
        by_cases h2 : order.tokens_remaining < token_amount
        · rw [if_pos h2] at h; exact absurd h (by simp)
        · rw [if_neg h2] at h
          cases hi : internal_transfer_tokens st.holdings now order.seller buyer
              token_amount with
          | error e => rw [hi] at h; exact absurd h (by simp)
          | ok hs =>
            rw [hi] at h
            simp only [Except.ok.injEq] at h
            subst h
            exact internal_transfer_sumAmount _ _ _ _ _ _ hi

theorem approve_ok_spec (st : ContractState) (now : Nat) (buyer : Addr)
    (st' : ContractState) (hemp : st.holdings = [])
    (h : approve_invoice st now buyer = .ok st') :
    st'.holdings = [{ holder := st.invoice.supplier, amount := st.invoice.amount,
                      acquired_at := now, acquired_price := st.invoice.amount }] ∧
    st'.invoice.total_tokens = st.invoice.amount ∧
    sumAmount st'.holdings = st'.invoice.total_tokens := by
  unfold approve_invoice at h
  by_cases h1 : st.invoice.buyer ≠ buyer
  · rw [if_pos h1] at h; exact absurd h (by simp)
  · rw [if_neg h1] at h
    by_cases h2 : st.invoice.status ≠ .Draft
    · rw [if_pos h2] at h; exact absurd h (by simp)
    · rw [if_neg h2] at h
      simp only [Except.ok.injEq] at h
      subst h
      rw [hemp]
      simp [set_token_holding, sumAmount, sumBy]

theorem settle_ok_spec (st : ContractState) (now : Nat) (buyer : Addr)
    (payment_amount : Int) (out : SettleOutcome)
    (h : settle st now buyer payment_amount = .ok out) :
    out.state.holdings = [] ∧
    out.transfers = ⟨buyer, Addr.contract, payment_amount⟩ ::
      st.holdings.map (fun hld => ⟨Addr.contract, hld.holder,
        Int.tdiv (hld.amount * payment_amount) st.invoice.total_tokens⟩) ∧
    out.state.invoice.status = .Settled := by
  unfold settle at h
  by_cases h1 : st.invoice.buyer ≠ buyer
  · rw [if_pos h1] at h; exact absurd h (by simp)
  · rw [if_neg h1] at h
    by_cases h2 : st.invoice.status ≠ .Funded ∧ st.invoice.status ≠ .Overdue ∧
        st.invoice.status ≠ .Verified ∧ st.invoice.status ≠ .Funding
    · rw [if_pos h2] at h; exact absurd h (by simp)
    · rw [if_neg h2] at h
      by_cases h3 : st.invoice.status = .Disputed
      · rw [if_pos h3] at h; exact absurd h (by simp)
      · rw [if_neg h3] at h
        dsimp only at h
        by_cases h4 : payment_amount < calculate_settlement_amount st.rate st.invoice now
        · rw [if_pos h4] at h; exact absurd h (by simp)
        · rw [if_neg h4] at h
          simp only [Except.ok.injEq] at h
          subst h
          rw [distribute_settlement_spec]
          exact ⟨rfl, rfl, rfl⟩

theorem revoke_ok_holdings (st : ContractState) (now : Nat) (supplier : Addr)
    (st' : ContractState) (h : revoke st now supplier = .ok st') :
    st'.holdings = [] ∧ st'.invoice.status = .Revoked := by
  unfold revoke at h
  by_cases h1 : st.invoice.supplier ≠ supplier
  · rw [if_pos h1] at h; exact absurd h (by simp)
  · rw [if_neg h1] at h
    dsimp only at h
    cases hst : st.invoice.status <;> rw [hst] at h <;> dsimp only at h <;>
      [skip; skip; exact absurd h (by simp); exact absurd h (by simp);
       exact absurd h (by simp); exact absurd h (by simp); exact absurd h (by simp);
       exact absurd h (by simp); exact absurd h (by simp)]
    · rw [if_neg (by simp)] at h
      simp only [Except.ok.injEq] at h
      subst h
      exact ⟨clear_token_holdings_eq_nil st.holdings, rfl⟩
    · by_cases hd : st.invoice.due_date < now
      · rw [if_neg (by simp [hd])] at h
        simp only [Except.ok.injEq] at h
        subst h
        exact ⟨clear_token_holdings_eq_nil st.holdings, rfl⟩
      · simp [hd] at h

theorem shares_mul_le (P T : Int) (hT : T ≠ 0) :
    ∀ l : List Int, ((l.map (fun a => a * P / T)).sum) * T ≤ l.sum * P := by
  intro l
  induction l with
  | nil => simp
  | cons a l ih =>
    simp only [List.map_cons, List.sum_cons, add_mul]
    have h1 : a * P / T * T ≤ a * P := Int.ediv_mul_le (a * P) hT
    omega

theorem sum_shares_le (P T : Int) (hT : 0 < T) (hP : 0 ≤ P) (l : List Int)
    (hsum : l.sum ≤ T) :
    (l.map (fun a => a * P / T)).sum ≤ P := by
  have h1 := shares_mul_le P T (ne_of_gt hT) l
  have h2 : l.sum * P ≤ T * P := mul_le_mul_of_nonneg_right hsum hP
  have h3 : (l.map (fun a => a * P / T)).sum * T ≤ P * T := by
    calc (l.map (fun a => a * P / T)).sum * T ≤ l.sum * P := h1
      _ ≤ T * P := h2
      _ = P * T := mul_comm T P
  exact le_of_mul_le_mul_right h3 hT

theorem internal_transfer_isOk (hs : List TokenHolding) (now : Nat) (src dst : Addr)
    (amount : Int) :
    isOk (internal_transfer_tokens hs now src dst amount) = true ↔
      ∃ hld, get_token_holding hs src = some hld ∧ amount ≤ hld.amount := by
  unfold internal_transfer_tokens
  cases hsrc : get_token_holding hs src with
  | none => simp [isOk]
  | some fh0 =>
    dsimp only
    by_cases hlt : fh0.amount < amount
    · rw [if_pos hlt]
      simp only [isOk, Option.some.injEq]
      constructor
      · intro h; cases h
      · rintro ⟨hld, rfl, hle⟩
        omega
    · rw [if_neg hlt]
      simp only [isOk, Option.some.injEq]
      constructor
      · intro _
        exact ⟨fh0, rfl, by omega⟩
      · intro _
        trivial

theorem fill_order_isOk (st : ContractState) (now : Nat) (order_id : Nat)
    (buyer : Addr) (token_amount : Int) :
    isOk (fill_order st now order_id buyer token_amount) = true ↔
      (buyer ∈ st.kyc ∧ ∃ order, st.orders[order_id]? = some order ∧
        (order.status = .Open ∨ order.status = .PartiallyFilled) ∧
        token_amount ≤ order.tokens_remaining ∧
        ∃ hld, get_token_holding st.holdings order.seller = some hld ∧
          token_amount ≤ hld.amount) := by
  unfold fill_order
  by_cases hk : buyer ∉ st.kyc
  · rw [if_pos hk]
    simp [isOk, hk]
  · rw [if_neg hk]
    rw [not_not] at hk
    cases ho : st.orders[order_id]? with
    | none => simp [isOk, hk]
    | some order =>
      dsimp only
      simp only [Option.some.injEq]
      by_cases h1 : order.status ≠ .Open ∧ order.status ≠ .PartiallyFilled
      · rw [if_pos h1]
        simp only [isOk, hk, true_and]
        constructor
        · intro h; cases h
        · rintro ⟨order', rfl, hstat, _⟩
          rcases hstat with h | h
          · exact absurd h h1.1
          · exact absurd h h1.2
      · rw [if_neg h1]
        rw [not_and_or, not_not, not_not] at h1
        by_cases h2 : order.tokens_remaining < token_amount
        · rw [if_pos h2]
          simp only [isOk, hk, true_and]
          constructor
          · intro h; cases h
          · rintro ⟨order', rfl, _, hle, _⟩
            omega
        · rw [if_neg h2]
          cases hi : internal_transfer_tokens st.holdings now order.seller buyer
              token_amount with
          | error e =>
            have := (internal_transfer_isOk st.holdings now order.seller buyer
              token_amount).not
            rw [hi] at this
            simp only [isOk] at this
            simp only [isOk, hk, true_and]
            constructor
            · intro h; cases h
            · rintro ⟨order', rfl, _, _, hcov⟩
              exact absurd hcov (this.mp (by simp))
          | ok hs =>
            have := (internal_transfer_isOk st.holdings now order.seller buyer
              token_amount)
            rw [hi] at this
            simp only [isOk, true_iff] at this
            simp only [isOk, hk, true_and]
            constructor
            · intro _
              exact ⟨order, rfl, h1, by omega, this⟩
            · intro _
              trivial

theorem create_sell_order_isOk (st : ContractState) (now : Nat) (seller : Addr)
    (token_amount price_per_token : Int) :
    isOk (create_sell_order st now seller token_amount price_per_token) = true ↔
      ∃ hld, get_token_holding st.holdings seller = some hld ∧
        token_amount ≤ hld.amount := by
  unfold create_sell_order
  cases hh : get_token_holding st.holdings seller with
  | none => simp [isOk]
  | some holding =>
    dsimp only
    simp only [Option.some.injEq]
    by_cases hlt : holding.amount < token_amount
    · rw [if_pos hlt]
      simp only [isOk]
      constructor
      · intro h; cases h
      · rintro ⟨hld, rfl, hle⟩
        omega
    · rw [if_neg hlt]
      simp only [isOk]
      constructor
      · intro _
        exact ⟨holding, rfl, by omega⟩
      · intro _
        trivial

/-! Claim theorems. -/

/-- C1: for every invoice, after a successful approve_invoice the sum of
holding.amount over its holdings equals total_tokens; every successful
invest, transfer_tokens and fill_order leaves that sum unchanged; and
settlement, revocation and clawback delete every holding of the invoice
(burning the tokens), so the sum at every reachable state equals
total_tokens minus the tokens burned by settlement, clawback or
revocation. -/
theorem C1_token_conservation (st : ContractState) (now : Nat) :
    (∀ investor token_amount out,
        invest st now investor token_amount = Except.ok out →
        sumAmount out.state.holdings = sumAmount st.holdings)
  ∧ (∀ src dst amount st',
        transfer_tokens st now src dst amount = Except.ok st' →
        sumAmount st'.holdings = sumAmount st.holdings)
  ∧ (∀ order_id buyer token_amount out,
        fill_order st now order_id buyer token_amount = Except.ok out →
        sumAmount out.state.holdings = sumAmount st.holdings)
  ∧ (∀ buyer st', st.holdings = [] → approve_invoice st now buyer = Except.ok st' →
        sumAmount st'.holdings = st'.invoice.total_tokens)
  ∧ (∀ buyer payment_amount out, settle st now buyer payment_amount = Except.ok out →
        out.state.holdings = [])
  ∧ (∀ supplier st', revoke st now supplier = Except.ok st' → st'.holdings = [])
  ∧ execute_clawback st.holdings = [] := by
  refine ⟨?_, ?_, ?_, ?_, ?_, ?_, execute_clawback_eq_nil st.holdings⟩
  · intro investor token_amount out h
    exact (invest_sumAmount st now investor token_amount out h).1
  · intro src dst amount st' h
    exact transfer_tokens_sumAmount st now src dst amount st' h
  · intro order_id buyer token_amount out h
    exact fill_order_sumAmount st now order_id buyer token_amount out h
  · intro buyer st' hemp h
    exact (approve_ok_spec st now buyer st' hemp h).2.2
  · intro buyer payment_amount out h
    exact (settle_ok_spec st now buyer payment_amount out h).1
  · intro supplier st' h
    exact (revoke_ok_holdings st now supplier st' h).1

/-- C1 witness: the conservation theorem applied to a concrete transfer
of 400,000 tokens on the verified fixture. -/
theorem C1_token_conservation_witness :
    sumAmount stTransferred.holdings = sumAmount stVerified.holdings :=
  (C1_token_conservation stVerified 20).2.1 (Addr.user 1) (Addr.user 3) 400000
    stTransferred (by rfl)

/-- C2 counterexample: after investor 3 buys 300,000 of the 1,000,000
minted tokens, tokens_sold is positive but the sum of all holdings is
1,000,000 (the supplier keeps the unsold remainder as a holding), not
tokens_sold = 300,000. -/
theorem C2_holdings_sum_counterexample :
    0 < outInvested.state.invoice.tokens_sold ∧
    sumAmount outInvested.state.holdings ≠ outInvested.state.invoice.tokens_sold := by
  decide

/-- C2 amended: immediately after a successful approve_invoice the sum of
the holdings equals total_tokens, all held by the supplier; and every
successful invest preserves the equality of the holdings sum with
total_tokens (the supplier retains the unsold remainder as a holding, so
the sum stays at total_tokens rather than dropping to tokens_sold). -/
theorem C2_holdings_sum (st : ContractState) (now : Nat) :
    (∀ buyer st', st.holdings = [] → approve_invoice st now buyer = Except.ok st' →
        st'.holdings = [{ holder := st.invoice.supplier, amount := st.invoice.amount,
                          acquired_at := now, acquired_price := st.invoice.amount }] ∧
        sumAmount st'.holdings = st'.invoice.total_tokens)
  ∧ (∀ investor token_amount out,
        sumAmount st.holdings = st.invoice.total_tokens →
        invest st now investor token_amount = Except.ok out →
        sumAmount out.state.holdings = out.state.invoice.total_tokens) := by
  constructor
  · intro buyer st' hemp h
    exact ⟨(approve_ok_spec st now buyer st' hemp h).1,
           (approve_ok_spec st now buyer st' hemp h).2.2⟩
  · intro investor token_amount out hsum h
    have := invest_sumAmount st now investor token_amount out h
    rw [this.1, this.2, hsum]

/-- C2 witness: the amended theorem applied to the concrete approval of
the draft fixture by buyer 2 at time 10. -/
theorem C2_holdings_sum_witness :
    stVerified.holdings =
      [{ holder := stDraft.invoice.supplier, amount := stDraft.invoice.amount,
         acquired_at := 10, acquired_price := stDraft.invoice.amount }] ∧
    sumAmount stVerified.holdings = stVerified.invoice.total_tokens :=
  (C2_holdings_sum stDraft 10).1 (Addr.user 2) stVerified (by rfl) (by rfl)

/-- C3: distributing an accepted settlement payment P over the holders of
an invoice with total_tokens T pays each holder exactly
floor(amount * P / T), deletes every holding of the invoice, pays nothing
negative, and pays out at most P in total (the division remainder stays
with the contract). -/
theorem C3_pro_rata (hs : List TokenHolding) (T P : Int)
    (hT : 0 < T) (hP : 0 ≤ P)
    (hpos : ∀ h ∈ hs, 0 ≤ h.amount) (hsum : sumAmount hs ≤ T) :
    (distribute_settlement hs T P).1 = []
  ∧ (distribute_settlement hs T P).2 =
      hs.map (fun h => ⟨Addr.contract, h.holder, h.amount * P / T⟩)
  ∧ (∀ t ∈ (distribute_settlement hs T P).2, 0 ≤ t.amount)
  ∧ ((distribute_settlement hs T P).2.map Transfer.amount).sum ≤ P := by
  have hspec := distribute_settlement_spec hs T P
  have hconv : ∀ h ∈ hs, Int.tdiv (h.amount * P) T = h.amount * P / T := by
    intro h hmem
    exact Int.tdiv_eq_ediv (mul_nonneg (hpos h hmem) hP) hT.le
  have hmap : hs.map (fun h =>
        (⟨Addr.contract, h.holder, Int.tdiv (h.amount * P) T⟩ : Transfer)) =
      hs.map (fun h => ⟨Addr.contract, h.holder, h.amount * P / T⟩) := by
    apply List.map_congr_left
    intro h hmem
    rw [hconv h hmem]
  refine ⟨by rw [hspec], by rw [hspec, hmap], ?_, ?_⟩
  · intro t ht
    rw [hspec] at ht
    simp only [List.mem_map] at ht
    obtain ⟨h, hmem, rfl⟩ := ht
    rw [hconv h hmem]
    exact Int.ediv_nonneg (mul_nonneg (hpos h hmem) hP) hT.le
  · rw [hspec, hmap]
    have : ((hs.map (fun h => (⟨Addr.contract, h.holder, h.amount * P / T⟩ : Transfer))).map
        Transfer.amount) = (hs.map TokenHolding.amount).map (fun a => a * P / T) := by
      simp [List.map_map, Function.comp]
    rw [this]
    exact sum_shares_le P T hT hP (hs.map TokenHolding.amount) hsum

/-- C3 witness: the pro-rata theorem applied to the two-holder fixture
(700,000 and 300,000 tokens of a 1,000,000-token invoice) with an
accepted payment of 1,010,000. -/
theorem C3_pro_rata_witness :
    ((distribute_settlement hsTwoHolders 1000000 1010000).2.map Transfer.amount).sum
      ≤ 1010000 :=
  (C3_pro_rata hsTwoHolders 1000000 1010000 (by decide) (by decide) (by decide)
    (by decide)).2.2.2

/-- C4: the required settlement payment is
amount + amount * rate * days_elapsed / (10000 * 365) with truncating
integer division, days_elapsed = (now - created_at) / 86400, and rate the
penalty rate once now is past the due date, else the base rate; given the
caller and status guards pass, settle fails with InsufficientPayment
exactly when payment_amount is below that required amount. -/
theorem C4_settlement_required (st : ContractState) (now : Nat) (buyer : Addr)
    (payment_amount : Int)
    (hb : st.invoice.buyer = buyer)
    (hs : st.invoice.status = .Funded ∨ st.invoice.status = .Overdue ∨
          st.invoice.status = .Verified ∨ st.invoice.status = .Funding) :
    calculate_settlement_amount st.rate st.invoice now =
      st.invoice.amount + Int.tdiv (st.invoice.amount *
        (((if st.invoice.due_date < now then st.rate.penalty_rate
           else st.rate.base_interest_rate) : Nat) : Int) *
        ((((now - st.invoice.created_at) / 86400 : Nat)) : Int)) (10000 * 365)
  ∧ (settle st now buyer payment_amount = Except.error ContractError.InsufficientPayment ↔
      payment_amount < calculate_settlement_amount st.rate st.invoice now) := by
  constructor
  · simp only [calculate_settlement_amount]
  · unfold settle
    rw [if_neg (by simp [hb])]
    rw [if_neg (by rcases hs with h | h | h | h <;> simp [h])]
    rw [if_neg (by rcases hs with h | h | h | h <;> simp [h])]
    dsimp only
    by_cases h4 : payment_amount < calculate_settlement_amount st.rate st.invoice now
    · rw [if_pos h4]
      simp [h4]
    · rw [if_neg h4]
      simp [h4]

/-- C4 witness: on the verified fixture at time 200,000 (2 full days of
base interest on 1,000,000: required 1,000,547), a payment of 1,000,000
is rejected as insufficient. -/
theorem C4_settlement_required_witness :
    settle stVerified 200000 (Addr.user 2) 1000000 =
      Except.error ContractError.InsufficientPayment :=
  ((C4_settlement_required stVerified 200000 (Addr.user 2) 1000000 (by rfl)
    (by right; right; left; rfl)).2).mpr (by decide)

/-- C5 counterexample: on an invoice with start_price 1,000,000, drop
rate 50 bps/hour and min_price 900,000, ten hours into the auction the
code returns 950,000 (a 5% drop), not the 995,000 stated by the claim. -/
theorem C5_price_example_counterexample :
    get_current_price invAuction 36100 = Except.ok 950000 ∧
    get_current_price invAuction 36100 ≠ Except.ok 995000 := by
  decide

/-- C5 amended: for an invoice whose auction has started, once now is at
or past auction_end the price is min_price; before auction_end it is
max(start_price - start_price * price_drop_rate * floor((now -
auction_start)/3600) / 10000, min_price); the returned price is never
below min_price.  At the example inputs (start 1,000,000, 50 bps/hour,
floor 900,000, 10 hours elapsed) the price is 950,000, not 995,000. -/
theorem C5_price (inv : Invoice) (now : Nat)
    (hstart : 0 < inv.auction_start) :
    (inv.auction_end ≤ now → get_current_price inv now = Except.ok inv.min_price)
  ∧ (now < inv.auction_end →
      get_current_price inv now = Except.ok (max (inv.start_price -
        Int.tdiv (inv.start_price * (inv.price_drop_rate : Int) *
          (((now - inv.auction_start) / 3600 : Nat) : Int)) 10000) inv.min_price))
  ∧ (∀ p, get_current_price inv now = Except.ok p → inv.min_price ≤ p)
  ∧ get_current_price invAuction 36100 = Except.ok 950000 := by
  have hne : inv.auction_start ≠ 0 := Nat.pos_iff_ne_zero.mp hstart
  refine ⟨?_, ?_, ?_, by decide⟩
  · intro hend
    unfold get_current_price
    rw [if_neg hne, if_pos hend]
  · intro hend
    unfold get_current_price
    rw [if_neg hne, if_neg (by omega)]
  · intro p hp
    unfold get_current_price at hp
    rw [if_neg hne] at hp
    by_cases hend : inv.auction_end ≤ now
    · rw [if_pos hend] at hp
      simp only [Except.ok.injEq] at hp
      omega
    · rw [if_neg hend] at hp
      simp only [Except.ok.injEq] at hp
      subst hp
      exact le_max_right _ _

/-- C5 witness: the amended theorem applied to the auction fixture one
hour in: the price is 1,000,000 - 5,000 = 995,000, above the floor. -/
theorem C5_price_witness :
    get_current_price invAuction 3700 = Except.ok (max (1000000 -
      Int.tdiv (1000000 * (50 : Int) * (1 : Int)) 10000) 900000) :=
  (C5_price invAuction 3700 (by decide)).2.1 (by decide)

/-- C6: a successful invest charges the investor
payment_amount = token_amount * current_price / total_tokens (auction
price if an auction has started, else the face amount), adds
insurance_cut = payment_amount * insurance_cut_bps / 10000 to the
insurance pool, and pays the supplier payment_amount - insurance_cut; on
the example (300,000 tokens at price 995,000, total 1,000,000, 500 bps)
the amounts are 298,500 / 14,925 / 283,575. -/
theorem C6_invest_amounts (st : ContractState) (now : Nat) (investor : Addr)
    (token_amount : Int) (out : InvestOutcome)
    (h : invest st now investor token_amount = Except.ok out) :
    ((∃ current_price,
        (if 0 < st.invoice.auction_start then
           get_current_price st.invoice now = Except.ok current_price
         else current_price = st.invoice.amount) ∧
        out.payment_amount =
          Int.tdiv (token_amount * current_price) st.invoice.total_tokens)
  ∧ out.insurance_amount =
      Int.tdiv (out.payment_amount * (st.rate.insurance_cut_bps : Int)) 10000
  ∧ out.supplier_payment = out.payment_amount - out.insurance_amount
  ∧ out.state.pool = st.pool + out.insurance_amount
  ∧ out.transfers = [⟨investor, Addr.contract, out.payment_amount⟩,
                     ⟨Addr.contract, st.invoice.supplier, out.supplier_payment⟩])
  ∧ (outAuctionInvest.payment_amount = 298500 ∧
     outAuctionInvest.insurance_amount = 14925 ∧
     outAuctionInvest.supplier_payment = 283575) := by
  refine ⟨?_, by decide⟩
  unfold invest at h
  by_cases hk : investor ∉ st.kyc
  · rw [if_pos hk] at h; exact absurd h (by simp)
  · rw [if_neg hk] at h
    by_cases hst : st.invoice.status ≠ .Funding ∧ st.invoice.status ≠ .Verified
    · rw [if_pos hst] at h; exact absurd h (by simp)
    · rw [if_neg hst] at h
      by_cases hrem : st.invoice.tokens_remaining < token_amount
      · rw [if_pos hrem] at h; exact absurd h (by simp)
      · rw [if_neg hrem] at h
        by_cases ha : 0 < st.invoice.auction_start
        · rw [if_pos ha] at h
          cases hp : get_current_price st.invoice now with
          | error e => rw [hp] at h; exact absurd h (by simp)
          | ok current_price =>
            rw [hp] at h
            dsimp only at h
            cases hsup : get_token_holding st.holdings st.invoice.supplier with
            | none => rw [hsup] at h; exact absurd h (by simp)
            | some sh0 =>
              rw [hsup] at h
              dsimp only at h
              by_cases hlt : sh0.amount < token_amount
              · rw [if_pos hlt] at h; exact absurd h (by simp)
              · rw [if_neg hlt] at h
                simp only [Except.ok.injEq] at h
                subst h
                exact ⟨⟨current_price, by rw [if_pos ha], rfl⟩,
                       rfl, rfl, rfl, rfl⟩
        · rw [if_neg ha] at h
          dsimp only at h
          cases hsup : get_token_holding st.holdings st.invoice.supplier with
          | none => rw [hsup] at h; exact absurd h (by simp)
          | some sh0 =>
            rw [hsup] at h
            dsimp only at h
            by_cases hlt : sh0.amount < token_amount
            · rw [if_pos hlt] at h; exact absurd h (by simp)
            · rw [if_neg hlt] at h
              simp only [Except.ok.injEq] at h
              subst h
              exact ⟨⟨st.invoice.amount, by rw [if_neg ha], rfl⟩,
                     rfl, rfl, rfl, rfl⟩

/-- C6 witness: the theorem applied to the concrete auction investment
(300,000 tokens one hour into the auction at price 995,000). -/
theorem C6_invest_amounts_witness :
    outAuctionInvest.payment_amount = 298500 ∧
    outAuctionInvest.insurance_amount = 14925 ∧
    outAuctionInvest.supplier_payment = 283575 :=
  (C6_invest_amounts stAuction 3700 (Addr.user 3) 300000 outAuctionInvest (by rfl)).2

/-- C7: claim_insurance succeeds only when the invoice is Defaulted and
the caller holds tokens of it; a successful claim pays
min(acquired_price / 2, pool_balance), debits the pool by exactly that
payout, and sets the claimed flag so that a second claim by the same
holder fails with AlreadyClaimed; when the capped amount is zero the
claim fails with InsufficientInsurancePool; and under the guards a
nonzero capped amount always succeeds. -/
theorem C7_claim_insurance (st : ContractState) (investor : Addr) :
    (∀ out, claim_insurance st investor = Except.ok out →
        st.invoice.status = .Defaulted ∧ investor ∉ st.claimed ∧
        (∃ holding, get_token_holding st.holdings investor = some holding ∧
          out.payout = min (Int.tdiv holding.acquired_price 2) st.pool) ∧
        out.state.pool = st.pool - out.payout ∧
        investor ∈ out.state.claimed ∧
        claim_insurance out.state investor = Except.error ContractError.AlreadyClaimed)
  ∧ (∀ holding, st.invoice.status = .Defaulted → investor ∉ st.claimed →
      get_token_holding st.holdings investor = some holding →
      min (Int.tdiv holding.acquired_price 2) st.pool = 0 →
      claim_insurance st investor = Except.error ContractError.InsufficientInsurancePool)
  ∧ (∀ holding, st.invoice.status = .Defaulted → investor ∉ st.claimed →
      get_token_holding st.holdings investor = some holding →
      min (Int.tdiv holding.acquired_price 2) st.pool ≠ 0 →
      claim_insurance st investor = Except.ok
        { state := { st with
            pool := st.pool - min (Int.tdiv holding.acquired_price 2) st.pool
            claimed := investor :: st.claimed }
          payout := min (Int.tdiv holding.acquired_price 2) st.pool
          transfers := [⟨Addr.contract, investor,
            min (Int.tdiv holding.acquired_price 2) st.pool⟩] }) := by
  refine ⟨?_, ?_, ?_⟩
  · intro out h
    unfold claim_insurance at h
    by_cases h1 : st.invoice.status ≠ .Defaulted
    · rw [if_pos h1] at h; exact absurd h (by simp)
    · rw [if_neg h1] at h
      push_neg at h1
      by_cases h2 : investor ∈ st.claimed
      · rw [if_pos h2] at h; exact absurd h (by simp)
      · rw [if_neg h2] at h
        cases hh : get_token_holding st.holdings investor with
        | none => rw [hh] at h; exact absurd h (by simp)
        | some holding =>
          rw [hh] at h
          dsimp only at h
          by_cases h3 : min (Int.tdiv holding.acquired_price 2) st.pool = 0
          · rw [if_pos h3] at h; exact absurd h (by simp)
          · rw [if_neg h3] at h
            by_cases h4 : st.pool < min (Int.tdiv holding.acquired_price 2) st.pool
            · rw [if_pos h4] at h; exact absurd h (by simp)
            · rw [if_neg h4] at h
              simp only [Except.ok.injEq] at h
              subst h
              refine ⟨h1, h2, ⟨holding, rfl, rfl⟩, rfl, List.mem_cons_self _ _, ?_⟩
              unfold claim_insurance
              rw [if_neg (by simp [h1])]
              rw [if_pos (List.mem_cons_self _ _)]
  · intro holding h1 h2 hh h3
    unfold claim_insurance
    rw [if_neg (by simp [h1]), if_neg h2, hh]
    dsimp only
    rw [if_pos h3]
  · intro holding h1 h2 hh h3
    unfold claim_insurance
    rw [if_neg (by simp [h1]), if_neg h2, hh]
    dsimp only
    rw [if_neg h3, if_neg (by simp)]

/-- C7 witness: the theorem applied to the defaulted fixture, where
investor 3 with acquired_price 300,000 claims against a 14,925 pool and
receives the capped 14,925; a repeated claim fails with AlreadyClaimed. -/
theorem C7_claim_insurance_witness :
    stDefaulted.invoice.status = InvoiceStatus.Defaulted ∧
    outClaim.state.pool = stDefaulted.pool - outClaim.payout ∧
    claim_insurance outClaim.state (Addr.user 3) =
      Except.error ContractError.AlreadyClaimed := by
  have h := (C7_claim_insurance stDefaulted (Addr.user 3)).1 outClaim (by rfl)
  exact ⟨h.1, h.2.2.2.1, h.2.2.2.2.2⟩

/-- C8 counterexample: from the verified fixture, investor 3 invests
300,000 tokens (tokens_sold becomes positive) while the status stays
Verified; after the due date the supplier can still successfully revoke,
contradicting the claim that revoke succeeds only before any investment. -/
theorem C8_revoke_counterexample :
    outInvested.state.invoice.status = InvoiceStatus.Verified ∧
    0 < outInvested.state.invoice.tokens_sold ∧
    isOk (revoke outInvested.state 1000001 (Addr.user 1)) = true := by
  decide

/-- C8 amended: revoke succeeds exactly when the caller is the supplier
and the status is Draft, or Verified with now past the due date —
regardless of whether any investment has been made; on success it clears
every token holding of the invoice and sets status Revoked, and in every
other state it fails with CannotRevoke. -/
theorem C8_revoke (st : ContractState) (now : Nat) (supplier : Addr)
    (hsup : st.invoice.supplier = supplier) :
    (isOk (revoke st now supplier) = true ↔
      (st.invoice.status = .Draft ∨
        (st.invoice.status = .Verified ∧ st.invoice.due_date < now)))
  ∧ (∀ st', revoke st now supplier = Except.ok st' →
      st'.holdings = [] ∧ st'.invoice.status = .Revoked)
  ∧ (¬(st.invoice.status = .Draft ∨
        (st.invoice.status = .Verified ∧ st.invoice.due_date < now)) →
      revoke st now supplier = Except.error ContractError.CannotRevoke) := by
  have hko : ∀ e : ContractError,
      isOk (Except.error e : Except ContractError ContractState) = false := fun _ => rfl
  refine ⟨?_, ?_, ?_⟩
  · unfold revoke
    rw [if_neg (by simp [hsup])]
    dsimp only
    cases hst : st.invoice.status <;> simp [isOk]
    by_cases hd : st.invoice.due_date < now
    · rw [if_neg (show ¬ now ≤ st.invoice.due_date by omega)]
      simp [hd]
    · rw [if_pos (by omega)]
      simp [hd]
  · intro st' h
    exact revoke_ok_holdings st now supplier st' h
  · intro hcond
    unfold revoke
    rw [if_neg (by simp [hsup])]
    dsimp only
    push_neg at hcond
    obtain ⟨hnd, hnv⟩ := hcond
    cases hst : st.invoice.status
    case Draft => exact absurd hst hnd
    case Verified =>
      dsimp only
      rw [if_pos (by simp [hnv hst])]
    all_goals (dsimp only; rw [if_pos (by simp)])

/-- C8 witness: the amended theorem applied after the concrete
investment: the supplier revokes the still-Verified invoice past its due
date, and all holdings are cleared. -/
theorem C8_revoke_witness :
    isOk (revoke outInvested.state 1000001 (Addr.user 1)) = true :=
  ((C8_revoke outInvested.state 1000001 (Addr.user 1) (by rfl)).1).mpr
    (by right; exact ⟨by rfl, by decide⟩)

/-- C9: fill_order never reads the invoice lifecycle status — for every
status, including Disputed, Overdue and Defaulted, a fill succeeds
exactly when the buyer is KYC-approved, the order is Open or
PartiallyFilled, token_amount is within the order remainder, and the
seller holding covers token_amount; by contrast transfer_tokens fails
with InvalidStatus unless the status is Verified, Funding or Funded; and
create_sell_order checks only the seller holding, not the invoice. -/
theorem C9_fill_ignores_status (st : ContractState) (now : Nat) (order_id : Nat)
    (buyer : Addr) (token_amount : Int) (src dst seller : Addr)
    (amount sell_amount price : Int) :
    (∀ s : InvoiceStatus,
        isOk (fill_order (withStatus st s) now order_id buyer token_amount) = true ↔
          (buyer ∈ st.kyc ∧ ∃ order, st.orders[order_id]? = some order ∧
            (order.status = .Open ∨ order.status = .PartiallyFilled) ∧
            token_amount ≤ order.tokens_remaining ∧
            ∃ hld, get_token_holding st.holdings order.seller = some hld ∧
              token_amount ≤ hld.amount))
  ∧ (∀ s : InvoiceStatus, s ≠ .Verified → s ≠ .Funded → s ≠ .Funding →
        transfer_tokens (withStatus st s) now src dst amount =
          Except.error ContractError.InvalidStatus)
  ∧ (∀ s : InvoiceStatus,
        isOk (create_sell_order (withStatus st s) now seller sell_amount price) = true ↔
          ∃ hld, get_token_holding st.holdings seller = some hld ∧
            sell_amount ≤ hld.amount) := by
  refine ⟨?_, ?_, ?_⟩
  · intro s
    exact fill_order_isOk (withStatus st s) now order_id buyer token_amount
  · intro s h1 h2 h3
    unfold transfer_tokens
    have hcond : (withStatus st s).invoice.status ≠ InvoiceStatus.Verified ∧
        (withStatus st s).invoice.status ≠ InvoiceStatus.Funded ∧
        (withStatus st s).invoice.status ≠ InvoiceStatus.Funding := ⟨h1, h2, h3⟩
    rw [if_pos hcond]
  · intro s
    exact create_sell_order_isOk (withStatus st s) now seller sell_amount price

/-- C9 witness: on the disputed order-book fixture, KYC-approved buyer 4
successfully fills 50,000 tokens of the open order even though the
invoice status is Disputed. -/
theorem C9_fill_ignores_status_witness :
    isOk (fill_order (withStatus stOrderBook InvoiceStatus.Disputed) 40 0
      (Addr.user 4) 50000) = true :=
  ((C9_fill_ignores_status stOrderBook 40 0 (Addr.user 4) 50000 (Addr.user 1)
      (Addr.user 3) (Addr.user 3) 0 0 0).1 InvoiceStatus.Disputed).mpr
    ⟨by decide,
     ⟨{ seller := .user 3, token_amount := 100000, price_per_token := 2,
        tokens_remaining := 100000, created_at := 30, status := .Open },
      by decide, by decide, by decide,
      ⟨{ holder := .user 3, amount := 300000, acquired_at := 20,
         acquired_price := 300000 }, by decide, by decide⟩⟩⟩

/-- C10: when internal_transfer_tokens credits a recipient with no
existing holding, the new holding copies the sender acquired_price while
the sender keeps theirs, so every partial transfer to a fresh recipient
with positive sender acquired_price strictly increases the sum of
acquired_price over the holdings of the invoice — inflating the total
insurance entitlement claimable after a default. -/
theorem C10_acquired_price_duplication (hs : List TokenHolding) (now : Nat)
    (src dst : Addr) (amount : Int) (hs' : List TokenHolding) (fh : TokenHolding)
    (hsrc : get_token_holding hs src = some fh)
    (hdst : get_token_holding hs dst = none)
    (hpart : amount < fh.amount)
    (hpos : 0 < fh.acquired_price)
    (hok : internal_transfer_tokens hs now src dst amount = Except.ok hs') :
    (∃ th, get_token_holding hs' dst = some th ∧
        th.acquired_price = fh.acquired_price ∧ th.amount = amount)
  ∧ get_token_holding hs' src = some { fh with amount := fh.amount - amount }
  ∧ sumAcquired hs' = sumAcquired hs + fh.acquired_price
  ∧ sumAcquired hs < sumAcquired hs' := by
  have hfh : fh.holder = src := get_holder_eq hs src fh hsrc
  have hne : src ≠ dst := by
    intro he
    rw [he] at hsrc
    rw [hsrc] at hdst
    cases hdst
  unfold internal_transfer_tokens at hok
  rw [hsrc] at hok
  dsimp only at hok
  rw [if_neg (show ¬ fh.amount < amount by omega)] at hok
  rw [if_neg (show ¬ (fh.amount - amount = 0) by omega)] at hok
  have hget1 : get_token_holding
      (set_token_holding hs { fh with amount := fh.amount - amount }) dst = none := by
    rw [get_set_ne hs _ dst (by simpa [hfh] using hne.symm)]
    exact hdst
  rw [hget1] at hok
  dsimp only at hok
  simp only [Except.ok.injEq] at hok
  subst hok
  have hsum1 : sumAcquired (set_token_holding hs { fh with amount := fh.amount - amount })
      = sumAcquired hs := by
    have := sumBy_set_of_get_some TokenHolding.acquired_price hs
      { fh with amount := fh.amount - amount } fh (by simpa [hfh] using hsrc)
    simp only [sumAcquired]
    rw [this]
    ring
  have hsum2 : sumAcquired (set_token_holding
      (set_token_holding hs { fh with amount := fh.amount - amount })
      { holder := dst, amount := amount, acquired_at := now,
        acquired_price := fh.acquired_price })
      = sumAcquired (set_token_holding hs { fh with amount := fh.amount - amount })
        + fh.acquired_price := by
    have := sumBy_set_of_get_none TokenHolding.acquired_price
      (set_token_holding hs { fh with amount := fh.amount - amount })
      { holder := dst, amount := amount, acquired_at := now,
        acquired_price := fh.acquired_price } (by simpa using hget1)
    simp only [sumAcquired]
    rw [this]
  refine ⟨?_, ?_, ?_, ?_⟩
  · refine ⟨{ holder := dst, amount := amount, acquired_at := now,
              acquired_price := fh.acquired_price }, ?_, rfl, rfl⟩
    exact get_set_self _ _
  · rw [get_set_ne _ _ src (by simpa using hne)]
    have := get_set_self hs { fh with amount := fh.amount - amount }
    simpa [hfh] using this
  · rw [hsum2, hsum1]
  · rw [hsum2, hsum1]
    omega

/-- C10 witness: investor 3 (holding 300,000 acquired for 300,000)
transfers 100,000 tokens to the fresh holder 4; the acquired_price sum
over the holdings doubles from 300,000 to 600,000. -/
theorem C10_acquired_price_duplication_witness :
    sumAcquired hsReseller < sumAcquired hsResellerAfter :=
  (C10_acquired_price_duplication hsReseller 50 (Addr.user 3) (Addr.user 4) 100000
    hsResellerAfter
    { holder := .user 3, amount := 300000, acquired_at := 20, acquired_price := 300000 }
    (by decide) (by decide) (by decide) (by decide) (by rfl)).2.2.2

end Sangini
